import Mathlib

/-!
Shallow embedding of the personal finance tracker (`Finance.py`).

The `FinanceManager` class keeps three pieces of state: a username → `User`
dictionary (`users`), the currently authenticated user (`current_user`), and a
username → list-of-records dictionary (`financial_records`).  Python dicts are
modelled as association lists in insertion order with unique keys; dictionary
assignment of a fresh key appends at the end, assignment or in-place mutation
of a present key rewrites that entry in place, which is exactly what
`dictGet` / `dictModify` below do on the first matching entry.

Python numbers (the CLI feeds `float` amounts) are modelled as `Int`: no claim
depends on floating-point behaviour, only on sums, differences and grouping.
`datetime.now().strftime('%Y-%m-%d')` is modelled by passing the current date
string explicitly (`today`) to `add_record`.  Methods that print a
success/failure message and return `None` are modelled as returning the new
state paired with a `Bool` success flag (or a dedicated result inductive when
the method has several distinct message paths).
-/

namespace Finance

/-- `FinancialRecord` from the source: description, amount, category,
record type (the source stores the strings "income" / "expense") and a
date string of shape `YYYY-MM-DD`. -/
structure FinancialRecord where
  description : String
  amount : Int
  category : String
  record_type : String
  date : String
deriving DecidableEq

/-- `User` from the source: a username and a plaintext password. -/
structure User where
  username : String
  password : String
deriving DecidableEq

/-- The mutable state of a `FinanceManager` instance: the users dict, the
session (`current_user`) and the records dict. -/
structure FinanceManager where
  users : List (String × User)
  current_user : Option User
  financial_records : List (String × List FinancialRecord)
deriving DecidableEq

/-- Python `d[k]` / `d.get(k)`: first entry with the given key (dicts have
unique keys, so "first" is "the" entry). -/
def dictGet {κ α : Type} [DecidableEq κ] (d : List (κ × α)) (k : κ) : Option α :=
  match d with
  | [] => none
  | p :: rest => if p.1 = k then some p.2 else dictGet rest k

/-- In-place mutation of the value stored under key `k` (identity when the
key is absent). -/
def dictModify {κ α : Type} [DecidableEq κ] (d : List (κ × α)) (k : κ) (f : α → α) :
    List (κ × α) :=
  match d with
  | [] => []
  | p :: rest => if p.1 = k then (p.1, f p.2) :: rest else p :: dictModify rest k f

/-- Python `self.financial_records.get(username, [])`. -/
def recordsGet (d : List (String × List FinancialRecord)) (k : String) :
    List FinancialRecord :=
  (dictGet d k).getD []

/-- `register_user`: refuses (returns `False`, prints "User already exists")
when the username is already a key of `users`; otherwise inserts the new user
(dict insertion appends at the end) and returns `True`. -/
def register_user (st : FinanceManager) (username password : String) :
    FinanceManager × Bool :=
  if (dictGet st.users username).isSome then (st, false)
  else ({ st with users := st.users ++ [(username, ⟨username, password⟩)] }, true)

/-- `save_users`: the list written to the users JSON file,
`[user.to_dict() for user in self.users.values()]`. -/
def save_users (st : FinanceManager) : List (String × String) :=
  st.users.map (fun p => (p.2.username, p.2.password))

/-- `authenticate_user`: succeeds exactly when the username is present and the
stored password equals the supplied one; on success sets `current_user`. -/
def authenticate_user (st : FinanceManager) (username password : String) :
    FinanceManager × Bool :=
  match dictGet st.users username with
  | none => (st, false)
  | some u => if u.password = password then ({ st with current_user := some u }, true)
              else (st, false)

/-- `add_record`: requires a session; builds a record stamped with the current
date (`today`), creates the user's empty bucket if missing, then appends. -/
def add_record (st : FinanceManager) (description : String) (amount : Int)
    (category : String) (record_type : String) (today : String) :
    FinanceManager × Bool :=
  match st.current_user with
  | none => (st, false)
  | some u =>
    let record : FinancialRecord := ⟨description, amount, category, record_type, today⟩
    let base := if (dictGet st.financial_records u.username).isSome
                then st.financial_records
                else st.financial_records ++ [(u.username, [])]
    ({ st with financial_records := dictModify base u.username (fun rs => rs ++ [record]) },
     true)

/-- `delete_record`: one guard covers "no session", negative index and index
past the end (all print "Invalid record index"); otherwise `del recs[i]`. -/
def delete_record (st : FinanceManager) (record_index : Int) : FinanceManager × Bool :=
  match st.current_user with
  | none => (st, false)
  | some u =>
    let recs := recordsGet st.financial_records u.username
    if record_index < 0 ∨ (recs.length : Int) ≤ record_index then (st, false)
    else
      let newRecords := dictModify st.financial_records u.username
        (fun rs => rs.eraseIdx record_index.toNat)
      ({ st with financial_records := newRecords }, true)

/-- In-place update of the element at position `i` (identity past the end),
modelling field assignments on `recs[i]`. -/
def listModify {α : Type} (l : List α) (i : Nat) (f : α → α) : List α :=
  match l, i with
  | [], _ => []
  | x :: xs, 0 => f x :: xs
  | x :: xs, n + 1 => x :: listModify xs n f

/-- The four `if field is not None: record.field = field` assignments of
`update_record`; `date` is never assigned. -/
def applyFields (description : Option String) (amount : Option Int)
    (category : Option String) (record_type : Option String)
    (r : FinancialRecord) : FinancialRecord :=
  { description := description.getD r.description,
    amount := amount.getD r.amount,
    category := category.getD r.category,
    record_type := record_type.getD r.record_type,
    date := r.date }

/-- `update_record`: same guard as `delete_record`; each `is not None` field
overwrites the stored one, `date` is never touched. -/
def update_record (st : FinanceManager) (record_index : Int)
    (description : Option String) (amount : Option Int)
    (category : Option String) (record_type : Option String) :
    FinanceManager × Bool :=
  match st.current_user with
  | none => (st, false)
  | some u =>
    let recs := recordsGet st.financial_records u.username
    if record_index < 0 ∨ (recs.length : Int) ≤ record_index then (st, false)
    else
      let newRecords := dictModify st.financial_records u.username
        (fun rs => listModify rs record_index.toNat
          (applyFields description amount category record_type))
      ({ st with financial_records := newRecords }, true)

/-- Outcome of `display_records`: the "log in" message, the "No records found"
message (zero record lines printed), or the enumerated record lines in list
order. -/
inductive DisplayResult where
  | notLoggedIn
  | noRecords
  | records (rs : List FinancialRecord)
deriving DecidableEq

/-- `display_records`: a pure read; it never mutates the store. -/
def display_records (st : FinanceManager) : DisplayResult :=
  match st.current_user with
  | none => .notLoggedIn
  | some u =>
    let recs := recordsGet st.financial_records u.username
    if recs.isEmpty then .noRecords else .records recs

/-- `calculate_totals`: `(None, None)` without a session, else the two
filtered sums (Python `sum` of an empty generator is `0`). -/
def calculate_totals (st : FinanceManager) : Option Int × Option Int :=
  match st.current_user with
  | none => (none, none)
  | some u =>
    let recs := recordsGet st.financial_records u.username
    (some (((recs.filter (fun r => r.record_type = "income")).map (fun r => r.amount)).sum),
     some (((recs.filter (fun r => r.record_type = "expense")).map (fun r => r.amount)).sum))

/-- `calculate_savings`: bare `return` (i.e. `None`) without a session, else
total income minus total expenses. -/
def calculate_savings (st : FinanceManager) : Option Int :=
  match st.current_user with
  | none => none
  | some u =>
    let recs := recordsGet st.financial_records u.username
    some ((((recs.filter (fun r => r.record_type = "income")).map (fun r => r.amount)).sum)
      - (((recs.filter (fun r => r.record_type = "expense")).map (fun r => r.amount)).sum))

/-- Digits of a decimal string chunk, as read by the date parser. -/
def parseNatChars (cs : List Char) : Nat :=
  cs.foldl (fun n c => n * 10 + (c.toNat - 48)) 0

/-- Split a `YYYY-MM-DD` date string into year, month, day. -/
def dateYMD (date : String) : Int × Int × Int :=
  let cs := date.toList
  ((parseNatChars (cs.take 4) : Int),
   (parseNatChars ((cs.drop 5).take 2) : Int),
   (parseNatChars ((cs.drop 8).take 2) : Int))

/-- Days since 1970-01-01 of a civil date (standard civil-calendar
day-count algorithm), used for the weekly period bucket. -/
def daysFromCivil (y m d : Int) : Int :=
  let yy := if m ≤ 2 then y - 1 else y
  let era := (if 0 ≤ yy then yy else yy - 399) / 400
  let yoe := yy - era * 400
  let mp := (m + 9) % 12
  let doy := (153 * mp + 2) / 5 + d - 1
  let doe := yoe * 365 + yoe / 4 - yoe / 100 + doy
  era * 146097 + doe - 719468

/-- Days since epoch of a record's date string. -/
def dateToDays (date : String) : Int :=
  let ymd := dateYMD date
  daysFromCivil ymd.1 ymd.2.1 ymd.2.2

/-- Calendar-month bucket of `pd.to_period('M')`: months since year 0. -/
def monthKey (date : String) : Int :=
  let ymd := dateYMD date
  ymd.1 * 12 + (ymd.2.1 - 1)

/-- Calendar-week bucket of `pd.to_period('W')` (weeks ending Sunday),
identified by the Monday that starts the week (1970-01-01 was a Thursday). -/
def weekKey (date : String) : Int :=
  let days := dateToDays date
  days - ((days + 3) % 7)

/-- Insertion step of the sort `pandas.groupby` applies to group keys. -/
def insortBy {κ : Type} (le : κ → κ → Bool) (k : κ) : List κ → List κ
  | [] => [k]
  | x :: xs => if le k x then k :: x :: xs else x :: insortBy le k xs

/-- Insertion sort by `le`; models the sorted group keys of a `groupby`. -/
def sortBy {κ : Type} (le : κ → κ → Bool) (l : List κ) : List κ :=
  l.foldr (insortBy le) []

/-- Accumulate a key, keeping the first occurrence only. -/
def insertKey {κ : Type} [DecidableEq κ] (ks : List κ) (k : κ) : List κ :=
  if k ∈ ks then ks else ks ++ [k]

/-- The distinct keys of a list, first occurrences in order. -/
def uniqueKeys {κ : Type} [DecidableEq κ] (l : List κ) : List κ :=
  l.foldl insertKey []

/-- `df.groupby(key)['amount'].sum()`: one row per distinct key, keys sorted,
each paired with the sum of `amount` over the rows having that key. -/
def groupSum {κ : Type} [DecidableEq κ] (le : κ → κ → Bool)
    (key : FinancialRecord → κ) (recs : List FinancialRecord) : List (κ × Int) :=
  (sortBy le (uniqueKeys (recs.map key))).map
    (fun k => (k, ((recs.filter (fun r => key r = k)).map (fun r => r.amount)).sum))

/-- Lexicographic code-point comparison of character lists (the order pandas
uses on string group keys). -/
def charsLe : List Char → List Char → Bool
  | [], _ => true
  | _ :: _, [] => false
  | a :: as, b :: bs =>
    if a.toNat < b.toNat then true
    else if b.toNat < a.toNat then false
    else charsLe as bs

/-- String order used for category group keys. -/
def strLe (a b : String) : Bool :=
  charsLe a.toList b.toList

/-- Strict version of `strLe`. -/
def strLt (a b : String) : Bool :=
  strLe a b && !(a == b)

/-- Lexicographic order on (period bucket, record type, category) group keys. -/
def rkeyLe (a b : Int × String × String) : Bool :=
  decide (a.1 < b.1) ||
    (decide (a.1 = b.1) &&
      (strLt a.2.1 b.2.1 ||
        (a.2.1 == b.2.1 && strLe a.2.2 b.2.2)))

/-- Outcome of `generate_report`: the "log in" message, the "No records
available" message, the "Invalid period specified" message (the method returns
`None`, no report), or the grouped report rows. -/
inductive ReportResult where
  | notLoggedIn
  | noRecords
  | invalidPeriod
  | report (rows : List ((Int × String × String) × Int))
deriving DecidableEq

/-- `generate_report`: session guard, then empty-records guard, then the
period dispatch; an unrecognized period hits the final `else` ("Invalid
period specified") and produces no report.  The method never assigns to the
manager's state, so the returned state is the input state. -/
def generate_report (st : FinanceManager) (period : String) :
    FinanceManager × ReportResult :=
  match st.current_user with
  | none => (st, .notLoggedIn)
  | some u =>
    let recs := recordsGet st.financial_records u.username
    if recs.isEmpty then (st, .noRecords)
    else if period = "monthly" then
      (st, .report (groupSum rkeyLe (fun r => (monthKey r.date, r.record_type, r.category)) recs))
    else if period = "weekly" then
      (st, .report (groupSum rkeyLe (fun r => (weekKey r.date, r.record_type, r.category)) recs))
    else (st, .invalidPeriod)

/-- Outcome of `view_spending_distribution`: the "log in" message, the "No
records available" message, the "No expenses recorded" message (the method
returns with no grouped aggregate), or the per-category expense sums. -/
inductive SpendingResult where
  | notLoggedIn
  | noRecords
  | noExpenses
  | dist (rows : List (String × Int))
deriving DecidableEq

/-- `df[df['record_type'] == 'expense']`. -/
def expenseRecords (recs : List FinancialRecord) : List FinancialRecord :=
  recs.filter (fun r => r.record_type = "expense")

/-- `view_spending_distribution`: session guard, empty-records guard, then the
expense filter; an empty filtered frame prints "No expenses recorded" and
returns, otherwise the frame is grouped by category and summed. -/
def view_spending_distribution (st : FinanceManager) : SpendingResult :=
  match st.current_user with
  | none => .notLoggedIn
  | some u =>
    let recs := recordsGet st.financial_records u.username
    if recs.isEmpty then .noRecords
    else
      let expense := expenseRecords recs
      if expense.isEmpty then .noExpenses
      else .dist (groupSum strLe (fun r => r.category) expense)

/-- `save_financial_records` applied to a records dict: the flat list written
to the finance JSON file, one `{username, **record}` object per record, users
in dict order, each user's records in list order. -/
def save_financial_records (d : List (String × List FinancialRecord)) :
    List (String × FinancialRecord) :=
  d.flatMap (fun p => p.2.map (fun r => (p.1, r)))

/-- One loop iteration of `load_financial_records`: create the username's
bucket at the end of the dict if missing, then append the record to it. -/
def loadStep (acc : List (String × List FinancialRecord))
    (e : String × FinancialRecord) : List (String × List FinancialRecord) :=
  if (dictGet acc e.1).isSome then dictModify acc e.1 (fun rs => rs ++ [e.2])
  else acc ++ [(e.1, [e.2])]

/-- `load_financial_records` applied to the flat file contents: rebuild the
records dict record by record. -/
def load_financial_records (l : List (String × FinancialRecord)) :
    List (String × List FinancialRecord) :=
  l.foldl loadStep []

/-- Arguments of one `add_record` call, including the stamped current date. -/
structure AddInput where
  description : String
  amount : Int
  category : String
  record_type : String
  today : String
deriving DecidableEq

/-- The record an `add_record` call constructs. -/
def mkRecord (a : AddInput) : FinancialRecord :=
  ⟨a.description, a.amount, a.category, a.record_type, a.today⟩

/-- A sequence of `add_record` calls, in order. -/
def applyAdds (st : FinanceManager) (l : List AddInput) : FinanceManager :=
  l.foldl (fun s a => (add_record s a.description a.amount a.category a.record_type a.today).1) st

/-! Concrete states used to instantiate the theorems. -/

/-- A registered user. -/
def exAlice : User := ⟨"alice", "pw"⟩

/-- An income record. -/
def exIncome : FinancialRecord := ⟨"salary", 100, "job", "income", "2024-01-15"⟩

/-- A food expense. -/
def exFood1 : FinancialRecord := ⟨"groceries", 20, "food", "expense", "2024-01-16"⟩

/-- Another food expense. -/
def exFood2 : FinancialRecord := ⟨"snacks", 10, "food", "expense", "2024-01-17"⟩

/-- A rent expense. -/
def exRent : FinancialRecord := ⟨"rent", 50, "rent", "expense", "2024-01-18"⟩

/-- Alice logged in with one income and three expense records. -/
def exSt : FinanceManager :=
  ⟨[("alice", exAlice)], some exAlice, [("alice", [exIncome, exFood1, exFood2, exRent])]⟩

/-- Alice logged in with no records at all. -/
def exStEmpty : FinanceManager :=
  ⟨[("alice", exAlice)], some exAlice, []⟩

/-- Records present but nobody logged in. -/
def exStNoAuth : FinanceManager :=
  ⟨[("alice", exAlice)], none, [("alice", [exIncome, exFood1])]⟩

/-- Alice logged in with the two records of the totals example in the spec. -/
def exStTotals : FinanceManager :=
  ⟨[("alice", exAlice)], some exAlice,
   [("alice", [⟨"salary", 100, "job", "income", "2024-01-15"⟩,
               ⟨"food", 30, "food", "expense", "2024-01-16"⟩])]⟩

/-- Alice logged in with a single income record (no expenses). -/
def exStIncomeOnly : FinanceManager :=
  ⟨[("alice", exAlice)], some exAlice, [("alice", [exIncome])]⟩

/-- A completely fresh manager: no users, no session, no records. -/
def exStFresh : FinanceManager :=
  ⟨[], none, []⟩

/-- Two `add_record` calls: first the income record, then a food expense. -/
def exAdds : List AddInput :=
  [⟨"salary", 100, "job", "income", "2024-01-15"⟩,
   ⟨"groceries", 20, "food", "expense", "2024-01-16"⟩]

/-! Helper lemmas about the dictionary model. -/

theorem dictGet_modify_self {κ α : Type} [DecidableEq κ] (d : List (κ × α)) (k : κ)
    (f : α → α) : dictGet (dictModify d k f) k = (dictGet d k).map f := by
  induction d with
  | nil => rfl
  | cons p rest ih =>
    simp only [dictModify]
    by_cases h : p.1 = k
    · rw [if_pos h]
      simp only [dictGet]
      rw [if_pos h, if_pos h]
      rfl
    · rw [if_neg h]
      simp only [dictGet]
      rw [if_neg h, if_neg h]
      exact ih

theorem dictGet_modify_other {κ α : Type} [DecidableEq κ] (d : List (κ × α)) (k k2 : κ)
    (f : α → α) (h : k2 ≠ k) : dictGet (dictModify d k f) k2 = dictGet d k2 := by
  induction d with
  | nil => rfl
  | cons p rest ih =>
    simp only [dictModify]
    by_cases hp : p.1 = k
    · rw [if_pos hp]
      have hk2 : ¬p.1 = k2 := by rw [hp]; exact fun hh => h hh.symm
      simp only [dictGet]
      rw [if_neg hk2, if_neg hk2]
    · rw [if_neg hp]
      by_cases hq : p.1 = k2
      · simp only [dictGet]
        rw [if_pos hq, if_pos hq]
      · simp only [dictGet]
        rw [if_neg hq, if_neg hq]
        exact ih

theorem dictGet_append_of_none {κ α : Type} [DecidableEq κ] (d1 d2 : List (κ × α)) (k : κ)
    (h : dictGet d1 k = none) : dictGet (d1 ++ d2) k = dictGet d2 k := by
  induction d1 with
  | nil => rfl
  | cons p rest ih =>
    simp only [List.cons_append, dictGet] at h ⊢
    by_cases hp : p.1 = k
    · rw [if_pos hp] at h
      exact absurd h (by simp)
    · rw [if_neg hp] at h ⊢
      exact ih h

theorem dictGet_append_of_some {κ α : Type} [DecidableEq κ] (d1 d2 : List (κ × α)) (k : κ)
    (v : α) (h : dictGet d1 k = some v) : dictGet (d1 ++ d2) k = some v := by
  induction d1 with
  | nil => exact absurd h (by simp [dictGet])
  | cons p rest ih =>
    simp only [List.cons_append, dictGet] at h ⊢
    by_cases hp : p.1 = k
    · rw [if_pos hp] at h ⊢
      exact h
    · rw [if_neg hp] at h ⊢
      exact ih h

theorem dictGet_single_ne {κ α : Type} [DecidableEq κ] (k k2 : κ) (v : α) (h : k ≠ k2) :
    dictGet [(k, v)] k2 = none := by
  simp [dictGet, h]

theorem listModify_length {α : Type} (l : List α) (i : Nat) (f : α → α) :
    (listModify l i f).length = l.length := by
  induction l generalizing i with
  | nil => rfl
  | cons x xs ih =>
    cases i with
    | zero => rfl
    | succ n => simp [listModify, ih]

theorem listModify_getElem?_other {α : Type} (l : List α) (i : Nat) (f : α → α) (j : Nat)
    (h : j ≠ i) : (listModify l i f)[j]? = l[j]? := by
  induction l generalizing i j with
  | nil => rfl
  | cons x xs ih =>
    cases i with
    | zero =>
      cases j with
      | zero => exact absurd rfl h
      | succ m => simp [listModify]
    | succ n =>
      cases j with
      | zero => simp [listModify]
      | succ m =>
        simp only [listModify, List.getElem?_cons_succ]
        exact ih n m (fun hh => h (by rw [hh]))

theorem listModify_getElem?_self {α : Type} (l : List α) (i : Nat) (f : α → α) :
    (listModify l i f)[i]? = (l[i]?).map f := by
  induction l generalizing i with
  | nil => rfl
  | cons x xs ih =>
    cases i with
    | zero => simp [listModify]
    | succ n => simpa [listModify] using ih n

/-! Theorems settling the claims. -/

/-- Claim C1: with a session and an in-bounds index, `delete_record` removes
exactly the record at that position (the new sequence is the prefix before it
followed by the suffix after it, so later records shift down by one) and
leaves every other user's records, the users dict and the session unchanged;
with no session, a negative index or an index past the end it reports failure
and leaves the whole state unchanged. -/
theorem delete_record_spec (st : FinanceManager) (i : Int) :
    (st.current_user = none → delete_record st i = (st, false)) ∧
    (∀ u : User, st.current_user = some u →
      ((0 ≤ i ∧ i < ((recordsGet st.financial_records u.username).length : Int)) →
        (delete_record st i).2 = true ∧
        recordsGet (delete_record st i).1.financial_records u.username =
          (recordsGet st.financial_records u.username).take i.toNat ++
            (recordsGet st.financial_records u.username).drop (i.toNat + 1) ∧
        (∀ v : String, v ≠ u.username →
          recordsGet (delete_record st i).1.financial_records v =
            recordsGet st.financial_records v) ∧
        (delete_record st i).1.users = st.users ∧
        (delete_record st i).1.current_user = st.current_user) ∧
      ((i < 0 ∨ ((recordsGet st.financial_records u.username).length : Int) ≤ i) →
        delete_record st i = (st, false))) := by
  constructor
  · intro h
    simp [delete_record, h]
  · intro u hu
    constructor
    · rintro ⟨h0, hlt⟩
      have hguard : ¬(i < 0 ∨ ((recordsGet st.financial_records u.username).length : Int) ≤ i) := by
        omega
      have hdel : delete_record st i = ({ st with financial_records := dictModify st.financial_records u.username (fun rs => rs.eraseIdx i.toNat) }, true) := by
        simp [delete_record, hu, hguard]
      rw [hdel]
      refine ⟨rfl, ?_, ?_, rfl, rfl⟩
      · show recordsGet (dictModify st.financial_records u.username
            (fun rs => rs.eraseIdx i.toNat)) u.username = _
        cases hd : dictGet st.financial_records u.username with
        | none =>
          exfalso
          unfold recordsGet at hlt
          rw [hd] at hlt
          simp at hlt
          omega
        | some recs =>
          unfold recordsGet
          rw [dictGet_modify_self, hd]
          simp [List.eraseIdx_eq_take_drop_succ]
      · intro v hv
        show recordsGet (dictModify st.financial_records u.username
            (fun rs => rs.eraseIdx i.toNat)) v = _
        unfold recordsGet
        rw [dictGet_modify_other _ _ _ _ hv]
    · intro h
      simp [delete_record, hu, h]

/-- Witness for C1: deleting index 1 of Alice's four records succeeds and
leaves `[exIncome, exFood2, exRent]`, while index `-1` and index 4 fail with
the state unchanged. -/
theorem delete_record_spec_witness :
    ((delete_record exSt 1).2 = true ∧
      recordsGet (delete_record exSt 1).1.financial_records "alice" =
        [exIncome, exFood2, exRent]) ∧
    delete_record exSt (-1) = (exSt, false) ∧
    delete_record exSt 4 = (exSt, false) := by
  refine ⟨⟨?_, ?_⟩, ?_, ?_⟩
  · exact (((delete_record_spec exSt 1).2 exAlice rfl).1 ⟨by decide, by decide⟩).1
  · exact ((((delete_record_spec exSt 1).2 exAlice rfl).1 ⟨by decide, by decide⟩).2.1).trans rfl
  · exact ((delete_record_spec exSt (-1)).2 exAlice rfl).2 (by decide)
  · exact ((delete_record_spec exSt 4).2 exAlice rfl).2 (by decide)

/-- Sum of the amounts of the records passing a filter, rewritten as a fold
so that the totals theorem is not a restatement of the definition. -/
theorem sum_filter_foldr (p : FinancialRecord → Prop) [DecidablePred p]
    (recs : List FinancialRecord) :
    ((recs.filter (fun r => decide (p r))).map (fun r => r.amount)).sum =
      recs.foldr (fun r acc => if p r then r.amount + acc else acc) 0 := by
  induction recs with
  | nil => rfl
  | cons r rest ih =>
    by_cases h : p r <;> simp [List.filter_cons, h, ih]

/-- Claim C2: with a session, `calculate_totals` returns the sum of the
amounts of the user's income records paired with the sum of the amounts of
the expense records, `calculate_savings` returns exactly their difference,
and both collapse to zero when the user has no records. -/
theorem calculate_totals_savings_spec (st : FinanceManager) (u : User)
    (hu : st.current_user = some u) :
    calculate_totals st =
      (some ((recordsGet st.financial_records u.username).foldr
        (fun r acc => if r.record_type = "income" then r.amount + acc else acc) 0),
       some ((recordsGet st.financial_records u.username).foldr
        (fun r acc => if r.record_type = "expense" then r.amount + acc else acc) 0)) ∧
    (∀ ti te : Int, calculate_totals st = (some ti, some te) →
      calculate_savings st = some (ti - te)) ∧
    (recordsGet st.financial_records u.username = [] →
      calculate_totals st = (some 0, some 0) ∧ calculate_savings st = some 0) := by
  refine ⟨?_, ?_, ?_⟩
  · have h1 := sum_filter_foldr (fun r => r.record_type = "income")
      (recordsGet st.financial_records u.username)
    have h2 := sum_filter_foldr (fun r => r.record_type = "expense")
      (recordsGet st.financial_records u.username)
    rw [← h1, ← h2]
    simp [calculate_totals, hu]
  · intro ti te h
    simp [calculate_totals, hu] at h
    simp [calculate_savings, hu, ← h.1, ← h.2]
  · intro h
    simp [calculate_totals, calculate_savings, hu, h]

/-- Witness for C2: the spec example, one income of 100 and one expense of
30, gives totals `(100, 30)` and savings `70`. -/
theorem calculate_totals_savings_spec_witness :
    calculate_totals exStTotals = (some 100, some 30) ∧
    calculate_savings exStTotals = some 70 := by
  have h := calculate_totals_savings_spec exStTotals exAlice rfl
  have h1 : calculate_totals exStTotals = (some 100, some 30) := h.1.trans rfl
  exact ⟨h1, (h.2.1 100 30 h1).trans rfl⟩

/-- Claim C10: with no session `calculate_totals` returns the sentinel pair
`(None, None)` and `calculate_savings` returns `None`, while any
authenticated user always gets numeric (`some`) results, so the two cases
are distinguishable even when the totals are zero. -/
theorem totals_savings_sentinel_spec (st : FinanceManager) :
    (st.current_user = none →
      calculate_totals st = (none, none) ∧ calculate_savings st = none) ∧
    (∀ u : User, st.current_user = some u →
      (calculate_totals st).1 ≠ none ∧ (calculate_totals st).2 ≠ none ∧
      calculate_savings st ≠ none) := by
  constructor
  · intro h
    simp [calculate_totals, calculate_savings, h]
  · intro u hu
    refine ⟨?_, ?_, ?_⟩
    · simp [calculate_totals, hu]
    · simp [calculate_totals, hu]
    · simp [calculate_savings, hu]

/-- Witness for C10: with records on file but nobody logged in, both results
are the sentinels; the same records under a session give `some` values. -/
theorem totals_savings_sentinel_spec_witness :
    (calculate_totals exStNoAuth = (none, none) ∧
      calculate_savings exStNoAuth = none) ∧
    calculate_savings exSt ≠ none := by
  exact ⟨(totals_savings_sentinel_spec exStNoAuth).1 rfl,
         ((totals_savings_sentinel_spec exSt).2 exAlice rfl).2.2⟩

/-- Claim C5: registering an already-present username returns `False` and
changes nothing (so the users file contents are unchanged too); registering a
fresh username returns `True` and inserts the user under that key, touching
neither the session nor the records. -/
theorem register_user_spec (st : FinanceManager) (username password : String) :
    ((dictGet st.users username).isSome →
      register_user st username password = (st, false) ∧
      save_users (register_user st username password).1 = save_users st) ∧
    (dictGet st.users username = none →
      (register_user st username password).2 = true ∧
      (register_user st username password).1.users =
        st.users ++ [(username, User.mk username password)] ∧
      dictGet (register_user st username password).1.users username =
        some (User.mk username password) ∧
      (register_user st username password).1.current_user = st.current_user ∧
      (register_user st username password).1.financial_records = st.financial_records) := by
  constructor
  · intro h
    have hr : register_user st username password = (st, false) := by
      simp [register_user, h]
    exact ⟨hr, by rw [hr]⟩
  · intro h
    have hr : register_user st username password = ({ st with users := st.users ++ [(username, ⟨username, password⟩)] }, true) := by
      simp [register_user, h]
    rw [hr]
    refine ⟨rfl, rfl, ?_, rfl, rfl⟩
    show dictGet (st.users ++ [(username, (⟨username, password⟩ : User))]) username = _
    rw [dictGet_append_of_none _ _ _ h]
    simp [dictGet]

/-- Witness for C5: on a fresh manager, registering "bob" succeeds; a second
registration of "bob" fails and leaves the state it found unchanged. -/
theorem register_user_spec_witness :
    (register_user exStFresh "bob" "pw1").2 = true ∧
    register_user (register_user exStFresh "bob" "pw1").1 "bob" "pw2" =
      ((register_user exStFresh "bob" "pw1").1, false) := by
  refine ⟨((register_user_spec exStFresh "bob" "pw1").2 rfl).1, ?_⟩
  exact ((register_user_spec (register_user exStFresh "bob" "pw1").1 "bob" "pw2").1 (by decide)).1

/-- Claim C6: `authenticate_user` succeeds exactly when the username is a key
of the users dict and the stored password is literally equal to the supplied
one; on success the session becomes that user (and nothing else changes), on
failure the whole state is returned unchanged. -/
theorem authenticate_user_spec (st : FinanceManager) (username password : String) :
    ((authenticate_user st username password).2 = true ↔
      (∃ u : User, dictGet st.users username = some u ∧ u.password = password)) ∧
    (∀ u : User, dictGet st.users username = some u → u.password = password →
      authenticate_user st username password = ({ st with current_user := some u }, true)) ∧
    ((authenticate_user st username password).2 = false →
      authenticate_user st username password = (st, false)) := by
  refine ⟨?_, ?_, ?_⟩
  · constructor
    · intro h
      cases hd : dictGet st.users username with
      | none => simp [authenticate_user, hd] at h
      | some u =>
        by_cases hp : u.password = password
        · exact ⟨u, rfl, hp⟩
        · simp [authenticate_user, hd, hp] at h
    · rintro ⟨u, hd, hp⟩
      simp [authenticate_user, hd, hp]
  · intro u hd hp
    simp [authenticate_user, hd, hp]
  · intro h
    cases hd : dictGet st.users username with
    | none => simp [authenticate_user, hd]
    | some u =>
      by_cases hp : u.password = password
      · simp [authenticate_user, hd, hp] at h
      · simp [authenticate_user, hd, hp]

/-- Witness for C6: the right password logs Alice in; a wrong password and an
unknown username both fail and leave the state unchanged. -/
theorem authenticate_user_spec_witness :
    authenticate_user exStNoAuth "alice" "pw" = ({ exStNoAuth with current_user := some exAlice }, true) ∧
    authenticate_user exStNoAuth "alice" "wrong" = (exStNoAuth, false) ∧
    authenticate_user exStNoAuth "bob" "pw" = (exStNoAuth, false) := by
  refine ⟨(authenticate_user_spec exStNoAuth "alice" "pw").2.1 exAlice rfl rfl, ?_, ?_⟩
  · exact (authenticate_user_spec exStNoAuth "alice" "wrong").2.2 (by decide)
  · exact (authenticate_user_spec exStNoAuth "bob" "pw").2.2 (by decide)

/-- Claim C3: with a session and an in-bounds index, `update_record`
overwrites exactly the supplied (`some`) fields of the record at that index,
keeps every unsupplied field — in particular `date` — at its prior value,
and leaves all other records of every user, the users dict and the session
unchanged; an out-of-bounds index or a missing session fails like
`delete_record`, leaving the state unchanged. -/
theorem update_record_spec (st : FinanceManager) (i : Int) (d : Option String)
    (a : Option Int) (c : Option String) (t : Option String) :
    (st.current_user = none → update_record st i d a c t = (st, false)) ∧
    (∀ u : User, st.current_user = some u →
      ((0 ≤ i ∧ i < ((recordsGet st.financial_records u.username).length : Int)) →
        (update_record st i d a c t).2 = true ∧
        (recordsGet (update_record st i d a c t).1.financial_records u.username).length =
          (recordsGet st.financial_records u.username).length ∧
        (∀ j : Nat, j ≠ i.toNat →
          (recordsGet (update_record st i d a c t).1.financial_records u.username)[j]? =
            (recordsGet st.financial_records u.username)[j]?) ∧
        (∀ r : FinancialRecord,
          (recordsGet st.financial_records u.username)[i.toNat]? = some r →
          (recordsGet (update_record st i d a c t).1.financial_records u.username)[i.toNat]? =
            some ⟨d.getD r.description, a.getD r.amount, c.getD r.category,
                  t.getD r.record_type, r.date⟩) ∧
        (∀ v : String, v ≠ u.username →
          recordsGet (update_record st i d a c t).1.financial_records v =
            recordsGet st.financial_records v) ∧
        (update_record st i d a c t).1.users = st.users ∧
        (update_record st i d a c t).1.current_user = st.current_user) ∧
      ((i < 0 ∨ ((recordsGet st.financial_records u.username).length : Int) ≤ i) →
        update_record st i d a c t = (st, false))) := by
  constructor
  · intro h
    simp [update_record, h]
  · intro u hu
    constructor
    · rintro ⟨h0, hlt⟩
      have hguard : ¬(i < 0 ∨ ((recordsGet st.financial_records u.username).length : Int) ≤ i) := by
        omega
      have hupd : update_record st i d a c t = ({ st with financial_records := dictModify st.financial_records u.username (fun rs => listModify rs i.toNat (applyFields d a c t)) }, true) := by
        simp [update_record, hu, hguard]
      cases hd : dictGet st.financial_records u.username with
      | none =>
        exfalso
        unfold recordsGet at hlt
        rw [hd] at hlt
        simp at hlt
        omega
      | some recs =>
        have hrecs : recordsGet st.financial_records u.username = recs := by
          unfold recordsGet
          rw [hd]
          rfl
        have hnew : recordsGet (update_record st i d a c t).1.financial_records u.username =
            listModify recs i.toNat (applyFields d a c t) := by
          rw [hupd]
          show recordsGet (dictModify st.financial_records u.username (fun rs => listModify rs i.toNat (applyFields d a c t))) u.username = _
          unfold recordsGet
          rw [dictGet_modify_self, hd]
          rfl
        refine ⟨by rw [hupd], ?_, ?_, ?_, ?_, by rw [hupd], by rw [hupd]⟩
        · rw [hnew, hrecs, listModify_length]
        · intro j hj
          rw [hnew, hrecs, listModify_getElem?_other _ _ _ _ hj]
        · intro r hr
          rw [hrecs] at hr
          rw [hnew, listModify_getElem?_self, hr]
          rfl
        · intro v hv
          rw [hupd]
          show recordsGet (dictModify st.financial_records u.username (fun rs => listModify rs i.toNat (applyFields d a c t))) v = _
          unfold recordsGet
          rw [dictGet_modify_other _ _ _ _ hv]
    · intro h
      simp [update_record, hu, h]

/-- Witness for C3: updating only the amount of Alice's record 1 leaves its
description, category, type and date alone; index 9 fails and changes
nothing. -/
theorem update_record_spec_witness :
    (update_record exSt 1 none (some 99) none none).2 = true ∧
    recordsGet (update_record exSt 1 none (some 99) none none).1.financial_records "alice" =
      [exIncome, ⟨"groceries", 99, "food", "expense", "2024-01-16"⟩, exFood2, exRent] ∧
    update_record exSt 9 none (some 99) none none = (exSt, false) := by
  refine ⟨(((update_record_spec exSt 1 none (some 99) none none).2 exAlice rfl).1
    ⟨by decide, by decide⟩).1, by rfl, ?_⟩
  exact ((update_record_spec exSt 9 none (some 99) none none).2 exAlice rfl).2 (by decide)

/-- Effect of one `add_record` call under a session: the record built from
the arguments is appended to the current user's sequence, every other user's
records, the users dict and the session stay as they were. -/
theorem add_record_state (st : FinanceManager) (u : User) (hu : st.current_user = some u)
    (d : String) (a : Int) (c t tod : String) :
    ((add_record st d a c t tod).1).current_user = some u ∧
    ((add_record st d a c t tod).1).users = st.users ∧
    recordsGet ((add_record st d a c t tod).1).financial_records u.username =
      recordsGet st.financial_records u.username ++ [⟨d, a, c, t, tod⟩] ∧
    (∀ v : String, v ≠ u.username →
      recordsGet ((add_record st d a c t tod).1).financial_records v =
        recordsGet st.financial_records v) := by
  cases hd : dictGet st.financial_records u.username with
  | some recs =>
    have hadd : add_record st d a c t tod = ({ st with financial_records := dictModify st.financial_records u.username (fun rs => rs ++ [⟨d, a, c, t, tod⟩]) }, true) := by
      simp [add_record, hu, hd]
    refine ⟨by rw [hadd]; exact hu, by rw [hadd], ?_, ?_⟩
    · rw [hadd]
      show recordsGet (dictModify st.financial_records u.username (fun rs => rs ++ [⟨d, a, c, t, tod⟩])) u.username = _
      unfold recordsGet
      rw [dictGet_modify_self, hd]
      rfl
    · intro v hv
      rw [hadd]
      show recordsGet (dictModify st.financial_records u.username (fun rs => rs ++ [⟨d, a, c, t, tod⟩])) v = _
      unfold recordsGet
      rw [dictGet_modify_other _ _ _ _ hv]
  | none =>
    have hadd : add_record st d a c t tod = ({ st with financial_records := dictModify (st.financial_records ++ [(u.username, [])]) u.username (fun rs => rs ++ [⟨d, a, c, t, tod⟩]) }, true) := by
      simp [add_record, hu, hd]
    have hbase : dictGet (st.financial_records ++ [(u.username, [])]) u.username = some [] := by
      rw [dictGet_append_of_none _ _ _ hd]
      simp [dictGet]
    refine ⟨by rw [hadd]; exact hu, by rw [hadd], ?_, ?_⟩
    · rw [hadd]
      show recordsGet (dictModify (st.financial_records ++ [(u.username, [])]) u.username (fun rs => rs ++ [⟨d, a, c, t, tod⟩])) u.username = _
      unfold recordsGet
      rw [dictGet_modify_self, hbase, hd]
      rfl
    · intro v hv
      rw [hadd]
      show recordsGet (dictModify (st.financial_records ++ [(u.username, [])]) u.username (fun rs => rs ++ [⟨d, a, c, t, tod⟩])) v = _
      unfold recordsGet
      rw [dictGet_modify_other _ _ _ _ hv]
      cases hv2 : dictGet st.financial_records v with
      | some w => rw [dictGet_append_of_some _ _ _ _ hv2]
      | none =>
        rw [dictGet_append_of_none _ _ _ hv2]
        rw [dictGet_single_ne u.username v ([] : List FinancialRecord) (fun hh => hv hh.symm)]

/-- Effect of a whole sequence of `add_record` calls, by induction on the
sequence: the constructed records are appended in call order. -/
theorem applyAdds_state (u : User) (l : List AddInput) :
    ∀ st : FinanceManager, st.current_user = some u →
    (applyAdds st l).current_user = some u ∧
    (applyAdds st l).users = st.users ∧
    recordsGet (applyAdds st l).financial_records u.username =
      recordsGet st.financial_records u.username ++ l.map mkRecord ∧
    (∀ v : String, v ≠ u.username →
      recordsGet (applyAdds st l).financial_records v = recordsGet st.financial_records v) := by
  induction l with
  | nil =>
    intro st hu
    exact ⟨hu, rfl, by simp [applyAdds], fun v hv => rfl⟩
  | cons x xs ih =>
    intro st hu
    obtain ⟨hc, hus, hself, hoth⟩ :=
      add_record_state st u hu x.description x.amount x.category x.record_type x.today
    obtain ⟨ihc, ihus, ihself, ihoth⟩ :=
      ih (add_record st x.description x.amount x.category x.record_type x.today).1 hc
    refine ⟨ihc, ihus.trans hus, ?_, ?_⟩
    · have h3 : recordsGet (applyAdds (add_record st x.description x.amount x.category x.record_type x.today).1 xs).financial_records u.username = recordsGet st.financial_records u.username ++ (x :: xs).map mkRecord := by
        rw [ihself, hself]
        simp [mkRecord]
      exact h3
    · intro v hv
      exact (ihoth v hv).trans (hoth v hv)

/-- What `display_records` shows under a session, as a function of the
stored sequence. -/
theorem display_records_eq (st : FinanceManager) (u : User) (hu : st.current_user = some u) :
    display_records st =
      if (recordsGet st.financial_records u.username).isEmpty then DisplayResult.noRecords
      else DisplayResult.records (recordsGet st.financial_records u.username) := by
  simp [display_records, hu]

/-- Claim C4: under a session, every `add_record` call appends a record
carrying exactly its arguments (date stamped with the call's current date) to
the end of the user's sequence, touching nothing else; after N adds on a user
who started with no records, `display_records` lists exactly those N records
in insertion order, and on a user with no records it prints the
no-records message with zero record lines (`display_records` is a pure read
and never mutates the store). -/
theorem add_display_spec (st : FinanceManager) (u : User) (hu : st.current_user = some u)
    (l : List AddInput) :
    (applyAdds st l).current_user = some u ∧
    (applyAdds st l).users = st.users ∧
    recordsGet (applyAdds st l).financial_records u.username =
      recordsGet st.financial_records u.username ++ l.map mkRecord ∧
    (∀ v : String, v ≠ u.username →
      recordsGet (applyAdds st l).financial_records v = recordsGet st.financial_records v) ∧
    (∀ x : AddInput, x ∈ l → (mkRecord x).date = x.today) ∧
    (recordsGet st.financial_records u.username = [] →
      (l = [] → display_records (applyAdds st l) = DisplayResult.noRecords) ∧
      (l ≠ [] → display_records (applyAdds st l) = DisplayResult.records (l.map mkRecord) ∧
        (l.map mkRecord).length = l.length)) := by
  obtain ⟨hc, hus, hself, hoth⟩ := applyAdds_state u l st hu
  refine ⟨hc, hus, hself, hoth, fun x hx => rfl, ?_⟩
  intro hempty
  have hrecs : recordsGet (applyAdds st l).financial_records u.username = l.map mkRecord := by
    rw [hself, hempty]
    simp
  constructor
  · intro hl
    rw [display_records_eq _ u hc, hrecs, hl]
    simp
  · intro hl
    rw [display_records_eq _ u hc, hrecs]
    have hne : (l.map mkRecord).isEmpty = false := by
      cases l with
      | nil => exact absurd rfl hl
      | cons y ys => rfl
    rw [hne]
    simp

/-- Witness for C4: two adds on record-less Alice produce exactly those two
records in order, `display_records` lists them, and before any add it shows
the no-records message. -/
theorem add_display_spec_witness :
    recordsGet (applyAdds exStEmpty exAdds).financial_records "alice" = [exIncome, exFood1] ∧
    display_records (applyAdds exStEmpty exAdds) = DisplayResult.records [exIncome, exFood1] ∧
    display_records exStEmpty = DisplayResult.noRecords := by
  have h := add_display_spec exStEmpty exAlice rfl exAdds
  refine ⟨(h.2.2.1).trans rfl, ?_, rfl⟩
  exact ((h.2.2.2.2.2 rfl).2 (by decide)).1.trans rfl

/-! Lemmas about the grouping machinery behind the report functions. -/

theorem mem_insertKey {κ : Type} [DecidableEq κ] (acc : List κ) (y z : κ) :
    z ∈ insertKey acc y ↔ z ∈ acc ∨ z = y := by
  by_cases hy : y ∈ acc
  · simp only [insertKey, if_pos hy]
    constructor
    · exact Or.inl
    · rintro (hz | hz)
      · exact hz
      · rw [hz]; exact hy
  · simp [insertKey, hy]

theorem mem_foldl_insertKey {κ : Type} [DecidableEq κ] (l : List κ) :
    ∀ (acc : List κ) (x : κ), x ∈ l.foldl insertKey acc ↔ x ∈ acc ∨ x ∈ l := by
  induction l with
  | nil =>
    intro acc x
    simp
  | cons y ys ih =>
    intro acc x
    have hstep : (y :: ys).foldl insertKey acc = ys.foldl insertKey (insertKey acc y) := rfl
    rw [hstep, ih, mem_insertKey]
    simp only [List.mem_cons]
    tauto

theorem mem_uniqueKeys {κ : Type} [DecidableEq κ] (l : List κ) (x : κ) :
    x ∈ uniqueKeys l ↔ x ∈ l := by
  unfold uniqueKeys
  rw [mem_foldl_insertKey]
  simp

theorem mem_insortBy {κ : Type} (le : κ → κ → Bool) (k : κ) (l : List κ) (x : κ) :
    x ∈ insortBy le k l ↔ x = k ∨ x ∈ l := by
  induction l with
  | nil => simp [insortBy]
  | cons y ys ih =>
    have hstep : insortBy le k (y :: ys) = if le k y then k :: y :: ys else y :: insortBy le k ys := rfl
    rw [hstep]
    by_cases h : le k y
    · rw [if_pos h]
      simp [List.mem_cons]
    · rw [if_neg h]
      simp only [List.mem_cons, ih]
      tauto

theorem mem_sortBy {κ : Type} (le : κ → κ → Bool) (l : List κ) (x : κ) :
    x ∈ sortBy le l ↔ x ∈ l := by
  induction l with
  | nil => simp [sortBy]
  | cons y ys ih =>
    have hstep : sortBy le (y :: ys) = insortBy le y (sortBy le ys) := rfl
    rw [hstep, mem_insortBy, ih]
    simp [List.mem_cons]

theorem dictGet_map_pair {κ : Type} [DecidableEq κ] (f : κ → Int) (l : List κ) (c : κ) :
    dictGet (l.map (fun k => (k, f k))) c = if c ∈ l then some (f c) else none := by
  induction l with
  | nil => simp [dictGet]
  | cons y ys ih =>
    simp only [List.map_cons, dictGet]
    by_cases hy : y = c
    · rw [if_pos hy, hy]
      simp
    · rw [if_neg hy, ih]
      have hmem : c ∈ y :: ys ↔ c ∈ ys := by
        simp only [List.mem_cons]
        constructor
        · rintro (h | h)
          · exact absurd h.symm hy
          · exact h
        · exact Or.inr
      by_cases hc : c ∈ ys
      · rw [if_pos hc, if_pos (hmem.mpr hc)]
      · rw [if_neg hc, if_neg (fun h => hc (hmem.mp h))]

/-- Looking a key up in a grouped-and-summed frame: present keys map to the
sum of the amounts of the rows carrying that key, absent keys to nothing. -/
theorem dictGet_groupSum {κ : Type} [DecidableEq κ] (le : κ → κ → Bool)
    (key : FinancialRecord → κ) (recs : List FinancialRecord) (c : κ) :
    dictGet (groupSum le key recs) c =
      if c ∈ recs.map key
      then some (((recs.filter (fun r => key r = c)).map (fun r => r.amount)).sum)
      else none := by
  unfold groupSum
  rw [dictGet_map_pair]
  by_cases hc : c ∈ recs.map key
  · rw [if_pos ((mem_sortBy _ _ _).mpr ((mem_uniqueKeys _ _).mpr hc)), if_pos hc]
  · rw [if_neg (fun h => hc ((mem_uniqueKeys _ _).mp ((mem_sortBy _ _ _).mp h))), if_neg hc]

/-- Claim C7 (with the empty case as the code actually behaves): under a
session with at least one expense record, `view_spending_distribution`
filters to the expense records, groups them by category and sums the amounts
per category; when the user has records but none are expenses the method
takes the "No expenses recorded" message path and produces no grouped
aggregate (it does not return an empty distribution), and with no records at
all it takes the "No records available" path. -/
theorem view_spending_distribution_spec (st : FinanceManager) (u : User)
    (hu : st.current_user = some u) :
    (expenseRecords (recordsGet st.financial_records u.username) ≠ [] →
      ∃ rows, view_spending_distribution st = SpendingResult.dist rows ∧
        (∀ c : String, dictGet rows c =
          if c ∈ (expenseRecords (recordsGet st.financial_records u.username)).map (fun r => r.category)
          then some ((((expenseRecords (recordsGet st.financial_records u.username)).filter (fun r => r.category = c)).map (fun r => r.amount)).sum)
          else none)) ∧
    (recordsGet st.financial_records u.username ≠ [] →
      expenseRecords (recordsGet st.financial_records u.username) = [] →
      view_spending_distribution st = SpendingResult.noExpenses) ∧
    (recordsGet st.financial_records u.username = [] →
      view_spending_distribution st = SpendingResult.noRecords) := by
  refine ⟨?_, ?_, ?_⟩
  · intro hne
    have hrne : recordsGet st.financial_records u.username ≠ [] := by
      intro h
      exact hne (by rw [h]; rfl)
    have h1 : (recordsGet st.financial_records u.username).isEmpty = false := by
      cases hcase : recordsGet st.financial_records u.username with
      | nil => exact absurd hcase hrne
      | cons a as => rfl
    have h2 : (expenseRecords (recordsGet st.financial_records u.username)).isEmpty = false := by
      cases hcase : expenseRecords (recordsGet st.financial_records u.username) with
      | nil => exact absurd hcase hne
      | cons a as => rfl
    have hview : view_spending_distribution st = SpendingResult.dist (groupSum strLe (fun r => r.category) (expenseRecords (recordsGet st.financial_records u.username))) := by
      simp [view_spending_distribution, hu, h1, h2]
    exact ⟨_, hview, fun c =>
      dictGet_groupSum strLe (fun r => r.category)
        (expenseRecords (recordsGet st.financial_records u.username)) c⟩
  · intro hrne hee
    have h1 : (recordsGet st.financial_records u.username).isEmpty = false := by
      cases hcase : recordsGet st.financial_records u.username with
      | nil => exact absurd hcase hrne
      | cons a as => rfl
    have h2 : (expenseRecords (recordsGet st.financial_records u.username)).isEmpty = true := by
      rw [hee]
      rfl
    simp [view_spending_distribution, hu, h1, h2]
  · intro h
    simp [view_spending_distribution, hu, h]

/-- Witness for C7: Alice's expenses {food: 20, food: 10, rent: 50} group to
{food: 30, rent: 50}, and the income category appears in no row. -/
theorem view_spending_distribution_spec_witness :
    ∃ rows, view_spending_distribution exSt = SpendingResult.dist rows ∧
      dictGet rows "food" = some 30 ∧ dictGet rows "rent" = some 50 ∧
      dictGet rows "job" = none := by
  obtain ⟨rows, hv, hall⟩ := (view_spending_distribution_spec exSt exAlice rfl).1 (by decide)
  exact ⟨rows, hv, (hall "food").trans (by decide), (hall "rent").trans (by decide),
    (hall "job").trans (by decide)⟩

/-- Counterexample for C7 as stated: a user whose records hold no expense
does not get an empty grouped result; the method takes the "No expenses
recorded" message path instead. -/
theorem view_spending_distribution_counterexample :
    view_spending_distribution exStIncomeOnly = SpendingResult.noExpenses ∧
    view_spending_distribution exStIncomeOnly ≠ SpendingResult.dist [] := by
  exact ⟨rfl, by decide⟩

/-- Claim C9 (with the precedence the code actually has): under a session, a
period other than "monthly" or "weekly" makes `generate_report` print
"Invalid period specified" and return no report, with the state unchanged —
provided the user has at least one record; with no records the "No records
available" guard fires first (still no report, state unchanged). -/
theorem generate_report_invalid_period_spec (st : FinanceManager) (u : User)
    (period : String) (hu : st.current_user = some u)
    (hm : period ≠ "monthly") (hw : period ≠ "weekly") :
    (recordsGet st.financial_records u.username ≠ [] →
      generate_report st period = (st, ReportResult.invalidPeriod)) ∧
    (recordsGet st.financial_records u.username = [] →
      generate_report st period = (st, ReportResult.noRecords)) := by
  constructor
  · intro hne
    have h1 : (recordsGet st.financial_records u.username).isEmpty = false := by
      cases hcase : recordsGet st.financial_records u.username with
      | nil => exact absurd hcase hne
      | cons a as => rfl
    simp [generate_report, hu, h1, hm, hw]
  · intro he
    have h1 : (recordsGet st.financial_records u.username).isEmpty = true := by
      rw [he]
      rfl
    simp [generate_report, hu, h1]

/-- Witness for C9 (amended): "daily" on a user with records yields the
invalid-period signal and no report; on a record-less user the no-records
signal fires instead. In both cases the state is returned unchanged. -/
theorem generate_report_invalid_period_spec_witness :
    generate_report exSt "daily" = (exSt, ReportResult.invalidPeriod) ∧
    generate_report exStEmpty "daily" = (exStEmpty, ReportResult.noRecords) := by
  refine ⟨(generate_report_invalid_period_spec exSt exAlice "daily" rfl (by decide)
    (by decide)).1 (by decide), ?_⟩
  exact (generate_report_invalid_period_spec exStEmpty exAlice "daily" rfl (by decide)
    (by decide)).2 rfl

/-- Counterexample for C9 as stated: an authenticated user with no records
asking for period "daily" is answered with the no-records signal, not the
invalid-period signal the claim promises for every authenticated user. -/
theorem generate_report_counterexample :
    generate_report exStEmpty "daily" = (exStEmpty, ReportResult.noRecords) ∧
    (generate_report exStEmpty "daily").2 ≠ ReportResult.invalidPeriod := by
  exact ⟨rfl, by decide⟩

/-! Lemmas for the persistence round trip. -/

theorem dictGet_eq_none {κ α : Type} [DecidableEq κ] (d : List (κ × α)) (k : κ)
    (h : ∀ p ∈ d, p.1 ≠ k) : dictGet d k = none := by
  induction d with
  | nil => rfl
  | cons p rest ih =>
    have hp : p.1 ≠ k := h p (List.mem_cons_self p rest)
    simp only [dictGet]
    rw [if_neg hp]
    exact ih (fun q hq => h q (List.mem_cons_of_mem p hq))

theorem dictModify_append_left {κ α : Type} [DecidableEq κ] (d1 d2 : List (κ × α)) (k : κ)
    (f : α → α) (h : ∀ p ∈ d1, p.1 ≠ k) :
    dictModify (d1 ++ d2) k f = d1 ++ dictModify d2 k f := by
  induction d1 with
  | nil => rfl
  | cons p rest ih =>
    have hp : p.1 ≠ k := h p (List.mem_cons_self p rest)
    simp only [List.cons_append, dictModify]
    rw [if_neg hp]
    exact congrArg (fun l => p :: l) (ih (fun q hq => h q (List.mem_cons_of_mem p hq)))

/-- Replaying the flat entries of one user onto an accumulator that already
holds that user's bucket (as its last entry) appends them to the bucket. -/
theorem foldl_loadStep_known (u : String) (recs : List FinancialRecord) :
    ∀ (pre : List (String × List FinancialRecord)) (rs : List FinancialRecord),
      (∀ p ∈ pre, p.1 ≠ u) →
      List.foldl loadStep (pre ++ [(u, rs)]) (recs.map (fun r => (u, r))) =
        pre ++ [(u, rs ++ recs)] := by
  induction recs with
  | nil =>
    intro pre rs h
    simp
  | cons r rest ih =>
    intro pre rs h
    have hget : dictGet (pre ++ [(u, rs)]) u = some rs := by
      rw [dictGet_append_of_none _ _ _ (dictGet_eq_none pre u h)]
      simp [dictGet]
    have hstep : loadStep (pre ++ [(u, rs)]) (u, r) = pre ++ [(u, rs ++ [r])] := by
      simp only [loadStep, hget, Option.isSome_some, if_true]
      rw [dictModify_append_left _ _ _ _ h]
      simp [dictModify]
    have hfold : List.foldl loadStep (pre ++ [(u, rs)]) ((r :: rest).map (fun x => (u, x))) =
        List.foldl loadStep (loadStep (pre ++ [(u, rs)]) (u, r)) (rest.map (fun x => (u, x))) := rfl
    rw [hfold, hstep, ih pre (rs ++ [r]) h]
    simp

/-- Replaying the serialized form of a well-formed store onto a
key-disjoint accumulator appends the store unchanged. -/
theorem foldl_loadStep_save (d : List (String × List FinancialRecord)) :
    ∀ pre : List (String × List FinancialRecord),
      (d.map Prod.fst).Nodup → (∀ p ∈ d, p.2 ≠ []) →
      (∀ p ∈ pre, ∀ q ∈ d, p.1 ≠ q.1) →
      List.foldl loadStep pre (save_financial_records d) = pre ++ d := by
  induction d with
  | nil =>
    intro pre _ _ _
    simp [save_financial_records]
  | cons e rest ih =>
    intro pre hnd hne hdisj
    obtain ⟨u, recs⟩ := e
    have hsave : save_financial_records ((u, recs) :: rest) =
        recs.map (fun r => (u, r)) ++ save_financial_records rest := by
      simp [save_financial_records]
    rw [hsave, List.foldl_append]
    cases recs with
    | nil => exact absurd rfl (hne (u, []) (List.mem_cons_self _ _))
    | cons r rest2 =>
      have hpre : ∀ p ∈ pre, p.1 ≠ u :=
        fun p hp => hdisj p hp (u, r :: rest2) (List.mem_cons_self _ _)
      have hget : dictGet pre u = none := dictGet_eq_none pre u hpre
      have hstep1 : loadStep pre (u, r) = pre ++ [(u, [r])] := by
        simp [loadStep, hget]
      have hfold : List.foldl loadStep pre ((r :: rest2).map (fun x => (u, x))) =
          List.foldl loadStep (loadStep pre (u, r)) (rest2.map (fun x => (u, x))) := rfl
      rw [hfold, hstep1, foldl_loadStep_known u rest2 pre [r] hpre]
      have hum : u ∉ rest.map Prod.fst := by
        have := hnd
        simp only [List.map_cons, List.nodup_cons] at this
        exact this.1
      have hih := ih (pre ++ [(u, [r] ++ rest2)])
        (by simp only [List.map_cons, List.nodup_cons] at hnd; exact hnd.2)
        (fun p hp => hne p (List.mem_cons_of_mem _ hp))
        ?_
      · rw [hih]
        simp
      · intro p hp q hq
        rcases List.mem_append.mp hp with hp1 | hp2
        · exact hdisj p hp1 q (List.mem_cons_of_mem _ hq)
        · have hpu : p = (u, [r] ++ rest2) := by simpa using hp2
          rw [hpu]
          show u ≠ q.1
          intro hcontra
          apply hum
          rw [hcontra]
          exact List.mem_map_of_mem Prod.fst hq

/-- Claim C8 (amended): serializing the records dict to the flat file format
and reloading it reproduces the dict exactly — same usernames in the same
order, each with the identical record sequence — for every store whose
usernames are distinct (the dict invariant) and in which every stored
username has at least one record. A username with an empty record sequence
contributes no flat entry and is dropped by the reload, which is why the
claim does not hold for every state. -/
theorem save_load_roundtrip (d : List (String × List FinancialRecord))
    (hnd : (d.map Prod.fst).Nodup) (hne : ∀ p ∈ d, p.2 ≠ []) :
    load_financial_records (save_financial_records d) = d := by
  unfold load_financial_records
  have h := foldl_loadStep_save d [] hnd hne (by intro p hp; simp at hp)
  simpa using h

/-- Witness for C8: a two-user store with one and two records survives the
round trip unchanged. -/
theorem save_load_roundtrip_witness :
    load_financial_records (save_financial_records
      [("alice", [exIncome, exFood1]), ("bob", [exRent])]) =
      [("alice", [exIncome, exFood1]), ("bob", [exRent])] := by
  exact save_load_roundtrip _ (by decide) (by decide)

/-- Counterexample for C8 as stated: a store holding a user with an empty
record sequence (reachable by deleting a user's last record) serializes to an
empty flat file and reloads as the empty store, not the original one. -/
theorem save_load_roundtrip_counterexample :
    load_financial_records (save_financial_records [("alice", [])]) = [] ∧
    load_financial_records (save_financial_records [("alice", [])]) ≠ [("alice", [])] := by
  exact ⟨rfl, by decide⟩

end Finance
